import Mathlib

/-!
Verification of the Studify client (and of its timetable-generation engine,
modelled from the specification) in a shallow embedding.

JavaScript numbers are embedded as rationals (`ℚ`); `parseFloat`/`parseInt`
results are embedded as `Option ℚ` / `Option ℤ`, where `none` stands for `NaN`
(the parse failed or the input was absent).  The JavaScript `x || d` idiom on
numbers is embedded by `jsOrQ` / `jsOrZ` (both `NaN` and `0` are falsy).
`Math.floor` is `Int.floor`, `Math.round x` is `⌊x + 1/2⌋` (round half towards
positive infinity), and `x % n` for the nonnegative operands used here is the
floor-remainder.
-/

namespace Studify

/-- JavaScript `Math.round` for the rational embedding of a JS number:
round half towards `+∞`. -/
def jsRound (q : ℚ) : ℤ := ⌊q + 1/2⌋

/-- JavaScript `x % y` (here only applied with nonnegative `x` and positive
`y`, where the truncated and floored remainders coincide). -/
def jsMod (x y : ℚ) : ℚ := x - y * ⌊x / y⌋

/-- JavaScript `x || d` for a parsed number `x : Option ℚ`
(`none` = `NaN`): `NaN` and `0` are falsy and yield the default. -/
def jsOrQ (x : Option ℚ) (d : ℚ) : ℚ :=
  match x with
  | none => d
  | some v => if v = 0 then d else v

/-- JavaScript `x || d` for a parsed integer `x : Option ℤ`
(`none` = `NaN`): `NaN` and `0` are falsy and yield the default. -/
def jsOrZ (x : Option ℤ) (d : ℤ) : ℤ :=
  match x with
  | none => d
  | some v => if v = 0 then d else v

/-! ## services/api.ts — the `StudySessionResponse` interface

The TypeScript interface `StudySessionResponse` (src/services/api.ts,
lines 179–188) declares exactly the fields
`id, subject, subject_color, title, duration, start_time, day, session_type`,
with `duration` of type `number` and all others of type `string`. -/

/-- A TypeScript field type as it appears in the `StudySessionResponse`
interface declaration. -/
inductive FieldTy where
  | str : FieldTy
  | num : FieldTy
deriving DecidableEq, Repr

/-- The field list of the client's `StudySessionResponse` interface,
read off the interface declaration in src/services/api.ts in source order. -/
def studySessionResponseFields : List (String × FieldTy) :=
  [("id", .str), ("subject", .str), ("subject_color", .str), ("title", .str),
   ("duration", .num), ("start_time", .str), ("day", .str),
   ("session_type", .str)]

/-- The client's `StudySessionResponse` interface (src/services/api.ts):
one study session as it arrives in a generate-timetable response. -/
structure StudySessionResponse where
  id : String
  subject : String
  subject_color : String
  title : String
  duration : ℚ
  start_time : String
  day : String
  session_type : String
deriving DecidableEq, Repr

/-- The client's `TimetableResponse` interface (src/services/api.ts). -/
structure TimetableResponse where
  sessions : List StudySessionResponse
  total_hours : ℚ
  days : ℚ
  subjects_covered : ℚ
deriving DecidableEq, Repr

/-- The body of a `generateTimetable` request as the client sends it
(src/services/api.ts, `generateTimetable`). -/
structure GenerateRequest where
  subject_ids : List String
  hours_per_day : ℚ
  preferred_blocks : List String
  exam_date : Option String
  days_count : ℤ
deriving DecidableEq, Repr

/-! ## features/planner/PlannerView.tsx -/

/-- The planner form state (`formData` in `PlannerView`).  The two numeric
text fields are embedded by the result of parsing them (`parseFloat` /
`parseInt`): `none` stands for `NaN`, i.e. an absent or unparseable input. -/
structure PlannerFormData where
  hoursPerDay : Option ℚ
  studyBlocks : List String
  examDate : String
  selectedSubjectIds : List String
  daysCount : Option ℤ
deriving DecidableEq, Repr

/-- The UI study-session record `PlannerView` builds from a response session
(`result.sessions.map` in `handleGenerate`). -/
structure UISession where
  id : String
  subject : String
  title : String
  duration : ℚ
  startTime : String
  color : String
  sessionKind : String
deriving DecidableEq, Repr

/-- The `timetableStats` state of `PlannerView`. -/
structure TimetableStats where
  totalHours : ℚ
  days : ℚ
  subjectsCovered : ℚ
deriving DecidableEq, Repr

/-- The slice of `PlannerView` state that `handleGenerate` may update:
the displayed study sessions and the timetable stats. -/
structure PlannerState where
  studySessions : List UISession
  timetableStats : TimetableStats
deriving DecidableEq, Repr

/-- The request body built inside `handleGenerate`
(src/features/planner/PlannerView.tsx, lines 58–66):
`hours_per_day` is `parseFloat(formData.hoursPerDay) || 4`,
`preferred_blocks` falls back to `['Morning (6-12)', 'Afternoon (12-18)']`
when no block is selected, `exam_date` is `formData.examDate || undefined`,
and `days_count` is `parseInt(formData.daysCount) || 7`. -/
def buildGenerateRequest (fd : PlannerFormData) : GenerateRequest :=
  { subject_ids := fd.selectedSubjectIds
    hours_per_day := jsOrQ fd.hoursPerDay 4
    preferred_blocks :=
      if fd.studyBlocks.length > 0 then fd.studyBlocks
      else ["Morning (6-12)", "Afternoon (12-18)"]
    exam_date := if fd.examDate = "" then none else some fd.examDate
    days_count := jsOrZ fd.daysCount 7 }

/-- The mapping from an API response session to the UI session record
(`handleGenerate`, lines 69–77). -/
def mapResponseSession (s : StudySessionResponse) : UISession :=
  { id := s.id
    subject := s.subject
    title := s.title
    duration := s.duration
    startTime := s.start_time
    color := s.subject_color
    sessionKind := s.session_type }

/-- The `handleGenerate` handler of `PlannerView`: guard on an empty subject
selection, otherwise build the request, send it (the backend is passed as a
function), and replace the session list and the stats with the response.
The second component collects the generate-timetable calls issued. -/
def handleGenerate (st : PlannerState) (fd : PlannerFormData)
    (backend : GenerateRequest → TimetableResponse) :
    PlannerState × List GenerateRequest :=
  if fd.selectedSubjectIds = [] then (st, [])
  else
    let req := buildGenerateRequest fd
    let result := backend req
    ({ studySessions := result.sessions.map mapResponseSession
       timetableStats :=
        { totalHours := result.total_hours
          days := result.days
          subjectsCovered := result.subjects_covered } },
     [req])

/-- The `toggleArrayItem` helper of `PlannerView` (lines 95–99): remove the
item if present (JS `filter(i => i !== item)`), append it otherwise. -/
def toggleArrayItem (array : List String) (item : String) : List String :=
  if array.contains item then array.filter (fun i => i != item)
  else array ++ [item]

/-! ## The four `formatMinutes` helpers

`SubjectManagement` and `DashboardView` special-case `minutes === 0`;
`AnalyzeView` and `LibraryView` do not.  All four are otherwise identical. -/

/-- Shared tail of all four `formatMinutes` helpers for `minutes >= 60`. -/
def formatHoursMinutes (minutes : ℚ) : String :=
  let h := ⌊minutes / 60⌋
  let m := jsRound (jsMod minutes 60)
  if m > 0 then toString h ++ "h " ++ toString m ++ "m"
  else toString h ++ "h"

/-- `formatMinutes` from `SubjectManagement` (src/unnamed/part_000,
lines 111–117), with the `minutes === 0` special case. -/
def formatMinutesSubjectMgmt (minutes : ℚ) : String :=
  if minutes = 0 then "0m"
  else if minutes < 60 then toString (jsRound minutes) ++ "m"
  else formatHoursMinutes minutes

/-- `formatMinutes` from `DashboardView`
(src/features/dashboard/DashboardView.tsx, lines 37–43), with the
`minutes === 0` special case. -/
def formatMinutesDashboard (minutes : ℚ) : String :=
  if minutes = 0 then "0m"
  else if minutes < 60 then toString (jsRound minutes) ++ "m"
  else formatHoursMinutes minutes

/-- `formatMinutes` from `AnalyzeView`
(src/features/analyze/AnalyzeView.tsx, lines 115–120), without a
`minutes === 0` special case. -/
def formatMinutesAnalyze (minutes : ℚ) : String :=
  if minutes < 60 then toString (jsRound minutes) ++ "m"
  else formatHoursMinutes minutes

/-- `formatMinutes` from `LibraryView`
(second document of src/features/analyze/components/AnalysisModal.tsx,
lines 342–347), without a `minutes === 0` special case. -/
def formatMinutesLibrary (minutes : ℚ) : String :=
  if minutes < 60 then toString (jsRound minutes) ++ "m"
  else formatHoursMinutes minutes

/-! ## features/analyze/components/AnalysisModal.tsx — `runAnalysis` -/

/-- The optional `fileMetadata` prop of `AnalysisModal`.  The
`estimatedTime` string field is embedded by the result of
`parseFloat(estimatedTimeStr.replace(/[hm]/g, ''))` applied to it
(`none` = absent metadata or an unparseable string, i.e. `NaN`). -/
structure FileMetadata where
  pages : Option ℚ
  estimatedTimeParsed : Option ℚ
  difficulty : Option String
  aiKeyTopics : Option (List String)
  aiStudyTips : Option (List String)
  aiReasoning : Option String
  wordCount : Option ℚ
  imageCount : Option ℚ
deriving DecidableEq, Repr

/-- The `AnalysisResult` interface of `AnalysisModal`.  A recommended
session is a `{ duration, type }` pair, embedded as duration × type-name. -/
structure AnalysisResult where
  totalPages : ℚ
  contentDensity : ℤ
  estimatedHours : ℤ
  difficulty : String
  recommendedSessions : List (ℕ × String)
  suggestedTopics : List String
  aiReasoning : Option String
  studyTips : Option (List String)
deriving DecidableEq, Repr

/-- The `contentDensity` computation of `runAnalysis` (line 78):
`Math.min(Math.floor((wordCount || 0) / Math.max(pages, 1) / 1.2) + 30, 100)`.
The literal `1.2` is the rational `6/5`. -/
def contentDensity (wordCount : ℚ) (pages : ℚ) : ℤ :=
  min (⌊wordCount / max pages 1 / (6/5)⌋ + 30) 100

/-- The value `pages` computed in `runAnalysis` (line 72):
`fileMetadata?.pages || 20`. -/
def pagesOf (md : Option FileMetadata) : ℚ :=
  jsOrQ (md.bind (fun m => m.pages)) 20

/-- The value `hours` computed in `runAnalysis` (lines 73–74):
the parsed `estimatedTime` with fallback `3`. -/
def hoursOf (md : Option FileMetadata) : ℚ :=
  jsOrQ (md.bind (fun m => m.estimatedTimeParsed)) 3

/-- The `analysisResult` record built by `runAnalysis`
(src/features/analyze/components/AnalysisModal.tsx, lines 76–95). -/
def runAnalysisResult (md : Option FileMetadata) : AnalysisResult :=
  let pages := pagesOf md
  let hours := hoursOf md
  { totalPages := pages
    contentDensity := contentDensity (jsOrQ (md.bind (fun m => m.wordCount)) 0) pages
    estimatedHours := ⌈hours⌉
    difficulty := (md.bind (fun m => m.difficulty)).getD "medium"
    recommendedSessions :=
      [(90, "Deep focus"), (60, "Review"), (90, "Deep focus"), (30, "Quick recap")]
    suggestedTopics :=
      (md.bind (fun m => m.aiKeyTopics)).getD
        ["Core concepts", "Key principles", "Applications", "Practice problems"]
    aiReasoning := md.bind (fun m => m.aiReasoning)
    studyTips := md.bind (fun m => m.aiStudyTips) }

/-! ## Concrete fixtures used by witnesses and counterexamples -/

/-- A planner form with one subject selected, no study blocks chosen, and
both numeric inputs unparseable (`NaN`). -/
def fdNoBlocks : PlannerFormData :=
  { hoursPerDay := none, studyBlocks := [], examDate := "",
    selectedSubjectIds := ["s1"], daysCount := none }

/-- A planner form with no subjects selected. -/
def fdEmptySubjects : PlannerFormData :=
  { hoursPerDay := none, studyBlocks := [], examDate := "",
    selectedSubjectIds := [], daysCount := none }

/-- The initial planner state: no sessions, zero stats. -/
def emptyPlannerState : PlannerState :=
  { studySessions := [], timetableStats := ⟨0, 0, 0⟩ }

/-- A backend stub answering every request with an empty timetable. -/
def nullBackend : GenerateRequest → TimetableResponse :=
  fun _ => { sessions := [], total_hours := 0, days := 0, subjects_covered := 0 }

/-! ## Claim theorems: client side -/

/-- C1 (counterexample): the client's session-response interface does NOT
type the fields named in the claim — its field names are
`id, subject, subject_color, title, duration, start_time, day, session_type`,
not `id, subject_id, subject_name, subject_color, title, duration_minutes,
start_time, day_index, session_type`. -/
theorem studySessionResponseFields_not_as_claimed :
    studySessionResponseFields.map Prod.fst ≠
      ["id", "subject_id", "subject_name", "subject_color", "title",
       "duration_minutes", "start_time", "day_index", "session_type"] := by
  decide

/-- C1 (amended): every study session in a generate-timetable response, as
typed by the client's `StudySessionResponse` interface, carries exactly the
fields `id`, `subject`, `subject_color`, `title`, `duration` (a number),
`start_time`, `day`, and `session_type`: the interface declares exactly
those eight names, and a session value is fully determined by them. -/
theorem studySessionResponse_fields :
    studySessionResponseFields.map Prod.fst =
      ["id", "subject", "subject_color", "title", "duration", "start_time",
       "day", "session_type"] ∧
    ∀ s t : StudySessionResponse, s.id = t.id → s.subject = t.subject →
      s.subject_color = t.subject_color → s.title = t.title →
      s.duration = t.duration → s.start_time = t.start_time → s.day = t.day →
      s.session_type = t.session_type → s = t := by
  refine ⟨by decide, ?_⟩
  intro s t h1 h2 h3 h4 h5 h6 h7 h8
  cases s; cases t; simp_all

/-- C1 (witness): the amended theorem applied at a concrete session value. -/
theorem studySessionResponse_fields_witness :
    ({ id := "1", subject := "Math", subject_color := "#fff", title := "T",
       duration := 30, start_time := "06:00", day := "Mon",
       session_type := "deep_focus" } : StudySessionResponse) =
    { id := "1", subject := "Math", subject_color := "#fff", title := "T",
      duration := 30, start_time := "06:00", day := "Mon",
      session_type := "deep_focus" } :=
  studySessionResponse_fields.2 _ _ rfl rfl rfl rfl rfl rfl rfl rfl

/-- C2 (counterexample): with no study blocks selected, the request the
handler sends does NOT carry `preferred_blocks = ["Morning", "Afternoon"]`. -/
theorem defaultBlocks_not_as_claimed :
    (handleGenerate emptyPlannerState fdNoBlocks nullBackend).2.map
        (fun r => r.preferred_blocks) ≠ [["Morning", "Afternoon"]] := by
  decide

/-- C2 (amended): for every generation request in which the user selected no
preferred study blocks, the request is sent with `preferred_blocks` equal to
the two-element list `["Morning (6-12)", "Afternoon (12-18)"]`. -/
theorem handleGenerate_default_blocks (st : PlannerState) (fd : PlannerFormData)
    (backend : GenerateRequest → TimetableResponse)
    (hb : fd.studyBlocks = []) (hs : fd.selectedSubjectIds ≠ []) :
    (handleGenerate st fd backend).2.map (fun r => r.preferred_blocks) =
      [["Morning (6-12)", "Afternoon (12-18)"]] := by
  simp [handleGenerate, hs, buildGenerateRequest, hb]

/-- C2 (witness): the amended theorem at a concrete form state. -/
theorem handleGenerate_default_blocks_witness :
    (handleGenerate emptyPlannerState fdNoBlocks nullBackend).2.map
        (fun r => r.preferred_blocks) =
      [["Morning (6-12)", "Afternoon (12-18)"]] :=
  handleGenerate_default_blocks emptyPlannerState fdNoBlocks nullBackend rfl
    (by decide)

/-- C4: with an empty subject selection the generate handler returns
before doing anything: no generate-timetable call is issued and the
displayed sessions and timetable stats are unchanged. -/
theorem handleGenerate_empty_selection (st : PlannerState)
    (fd : PlannerFormData) (backend : GenerateRequest → TimetableResponse)
    (h : fd.selectedSubjectIds = []) :
    handleGenerate st fd backend = (st, []) := by
  simp [handleGenerate, h]

/-- C4 (witness): the theorem at a concrete empty selection. -/
theorem handleGenerate_empty_selection_witness :
    handleGenerate emptyPlannerState fdEmptySubjects nullBackend =
      (emptyPlannerState, []) :=
  handleGenerate_empty_selection emptyPlannerState fdEmptySubjects nullBackend
    rfl

/-- C5: when the hours-per-day input parses to `NaN` (absent or
unparseable), the request is sent with `hours_per_day = 4`, and when the
days-to-plan input parses to `NaN`, it is sent with `days_count = 7`. -/
theorem handleGenerate_numeric_defaults (st : PlannerState)
    (fd : PlannerFormData) (backend : GenerateRequest → TimetableResponse)
    (hs : fd.selectedSubjectIds ≠ []) :
    (fd.hoursPerDay = none →
      (handleGenerate st fd backend).2.map (fun r => r.hours_per_day) = [4]) ∧
    (fd.daysCount = none →
      (handleGenerate st fd backend).2.map (fun r => r.days_count) = [7]) := by
  constructor <;> intro h <;>
    simp [handleGenerate, hs, buildGenerateRequest, jsOrQ, jsOrZ, h]

/-- C5 (witness): the theorem at a concrete form whose numeric inputs are
both unparseable. -/
theorem handleGenerate_numeric_defaults_witness :
    (handleGenerate emptyPlannerState fdNoBlocks nullBackend).2.map
        (fun r => r.hours_per_day) = [4] ∧
    (handleGenerate emptyPlannerState fdNoBlocks nullBackend).2.map
        (fun r => r.days_count) = [7] :=
  ⟨(handleGenerate_numeric_defaults emptyPlannerState fdNoBlocks nullBackend
      (by decide)).1 rfl,
   (handleGenerate_numeric_defaults emptyPlannerState fdNoBlocks nullBackend
      (by decide)).2 rfl⟩

/-- C7: the recommended study-session sequence produced for an analyzed file
is the fixed four-entry catalog — deep focus 90 min, review 60 min, deep
focus 90 min, quick recap 30 min, in that order — for every input file
metadata. -/
theorem runAnalysis_fixed_sessions (md : Option FileMetadata) :
    (runAnalysisResult md).recommendedSessions =
      [(90, "Deep focus"), (60, "Review"), (90, "Deep focus"),
       (30, "Quick recap")] := rfl

/-- Toggling an item changes exactly its own membership: the result contains
the item iff the input did not. -/
theorem toggle_mem (a : List String) (x : String) :
    x ∈ toggleArrayItem a x ↔ x ∉ a := by
  by_cases h : x ∈ a
  · rw [toggleArrayItem, if_pos (List.elem_iff.mpr h)]
    simp [List.mem_filter, h]
  · rw [toggleArrayItem, if_neg (by simpa using h)]
    simp [h]

/-- Toggling an item leaves the multiplicity of every other element
unchanged. -/
theorem toggle_count (a : List String) (x y : String) (hy : y ≠ x) :
    (toggleArrayItem a x).count y = a.count y := by
  rw [toggleArrayItem]
  split
  · exact List.count_filter (by simp [hy])
  · simp [List.count_append, List.count_singleton', hy.symm]

/-- Toggling the same item twice restores the original membership set. -/
theorem toggle_twice (a : List String) (x y : String) :
    y ∈ toggleArrayItem (toggleArrayItem a x) x ↔ y ∈ a := by
  by_cases hy : y = x
  · subst hy
    rw [toggle_mem, toggle_mem]
    tauto
  · rw [← List.count_pos_iff, ← List.count_pos_iff,
      toggle_count _ _ _ hy, toggle_count _ _ _ hy]

/-- C8: `toggleArrayItem a x` contains `x` iff `a` does not; every element
other than `x` keeps its multiplicity; and toggling the same item twice
restores the original membership set. -/
theorem toggleArrayItem_spec (a : List String) (x : String) :
    (x ∈ toggleArrayItem a x ↔ x ∉ a) ∧
    (∀ y, y ≠ x → (toggleArrayItem a x).count y = a.count y) ∧
    (∀ y, y ∈ toggleArrayItem (toggleArrayItem a x) x ↔ y ∈ a) :=
  ⟨toggle_mem a x, fun y hy => toggle_count a x y hy, fun y => toggle_twice a x y⟩

/-- C8 (witness): the theorem at a concrete list and item. -/
theorem toggleArrayItem_spec_witness :
    ("b" ∈ toggleArrayItem ["a"] "b" ↔ "b" ∉ (["a"] : List String)) ∧
    (toggleArrayItem ["a"] "b").count "a" = (["a"] : List String).count "a" ∧
    ("a" ∈ toggleArrayItem (toggleArrayItem ["a"] "b") "b" ↔
      "a" ∈ (["a"] : List String)) :=
  ⟨(toggleArrayItem_spec ["a"] "b").1,
   (toggleArrayItem_spec ["a"] "b").2.1 "a" (by decide),
   (toggleArrayItem_spec ["a"] "b").2.2 "a"⟩

/-- C9: the four `formatMinutes` helpers agree on every nonnegative number
of minutes — the `minutes === 0` special case of the SubjectManagement and
DashboardView copies coincides with what the AnalyzeView and LibraryView
copies compute at `0`. -/
theorem formatMinutes_all_agree (q : ℚ) (h : 0 ≤ q) :
    formatMinutesSubjectMgmt q = formatMinutesDashboard q ∧
    formatMinutesSubjectMgmt q = formatMinutesAnalyze q ∧
    formatMinutesSubjectMgmt q = formatMinutesLibrary q := by
  have hAV : formatMinutesSubjectMgmt q = formatMinutesAnalyze q := by
    by_cases hq : q = 0
    · subst hq
      rw [formatMinutesSubjectMgmt, if_pos rfl, formatMinutesAnalyze,
        if_pos (by norm_num)]
      have h1 : jsRound 0 = 0 := by rw [jsRound]; norm_num
      rw [h1]
      rfl
    · rw [formatMinutesSubjectMgmt, if_neg hq, formatMinutesAnalyze]
  exact ⟨rfl, hAV, hAV⟩

/-- C9 (witness): the theorem at minutes = 0, the one input where the four
bodies differ syntactically. -/
theorem formatMinutes_all_agree_witness :
    formatMinutesSubjectMgmt 0 = formatMinutesDashboard 0 ∧
    formatMinutesSubjectMgmt 0 = formatMinutesAnalyze 0 ∧
    formatMinutesSubjectMgmt 0 = formatMinutesLibrary 0 :=
  formatMinutes_all_agree 0 (by decide)

/-- C10: for every nonnegative word count and every page count, the
`contentDensity` computed for an analysis result lies in `[30, 100]`. -/
theorem contentDensity_range (wc pages : ℚ) (h : 0 ≤ wc) :
    30 ≤ contentDensity wc pages ∧ contentDensity wc pages ≤ 100 := by
  constructor
  · apply le_min _ (by norm_num)
    have harg : (0:ℚ) ≤ wc / max pages 1 / (6/5) := by
      apply div_nonneg (div_nonneg h _) (by norm_num)
      exact le_trans zero_le_one (le_max_right pages 1)
    have := Int.floor_nonneg.mpr harg
    omega
  · exact min_le_right _ _

/-- C10 (witness): the theorem at word count 0 and page count 0. -/
theorem contentDensity_range_witness :
    30 ≤ contentDensity 0 0 ∧ contentDensity 0 0 ≤ 100 :=
  contentDensity_range 0 0 (by decide)

/-! ## The timetable generation engine

Modelled from the spec: the generation engine runs in the backend behind
`POST /timetable/generate`; only its client (src/services/api.ts) is part of
this repository's source snapshot.  The definitions in this namespace follow
the specification's §3 (data model), §4.1 (proportional allocation with
water-filling and 30-minute rounding), §4.2 (the cyclic session-type
catalog), §4.3 (round-robin placement over days and preferred blocks) and
§4.4 (schedule assembly), together with §6/§7 (request validation and the
zero-capacity policy).  Calendar arithmetic is abstracted: a request carries
`days_until(exam_date)` (an integer, `none` when no exam date was supplied)
instead of the ISO date string. -/

namespace Engine

/-- A subject as the engine consumes it (§3): identity plus the accumulated
outstanding study minutes. -/
structure Subject where
  id : String
  name : String
  color : String
  outstanding_minutes : ℕ
deriving DecidableEq, Repr

/-- A generation request (§3, §6).  `exam_days_until` is
`days_until(exam_date)` relative to today (`none` = no exam date). -/
structure Request where
  subject_ids : List String
  hours_per_day : ℚ
  preferred_blocks : List String
  exam_days_until : Option ℤ
  days_count : ℕ
deriving DecidableEq, Repr

/-- The three named time blocks of a day (§3, glossary). -/
inductive Block where
  | morning : Block
  | afternoon : Block
  | evening : Block
deriving DecidableEq, Repr

/-- Start of a block's window, in minutes since midnight
(Morning 6–12, Afternoon 12–18, Evening 18–24). -/
def blockLo : Block → ℕ
  | .morning => 360
  | .afternoon => 720
  | .evening => 1080

/-- End of a block's window, in minutes since midnight. -/
def blockHi : Block → ℕ
  | .morning => 720
  | .afternoon => 1080
  | .evening => 1440

/-- Resolve a TimeBlock name from a request to a block of the catalog;
unknown names resolve to nothing. -/
def parseBlock (s : String) : Option Block :=
  if s = "Morning" then some .morning
  else if s = "Afternoon" then some .afternoon
  else if s = "Evening" then some .evening
  else none

/-- Mutable per-day placement state (§4.3, design note §9): the remaining
daily minute budget and, per block, the next free start time within the
block's window. -/
structure DayState where
  capLeft : ℚ
  morningFree : ℕ
  afternoonFree : ℕ
  eveningFree : ℕ
deriving DecidableEq, Repr

/-- The next free start time of a block on a day. -/
def DayState.free (d : DayState) : Block → ℕ
  | .morning => d.morningFree
  | .afternoon => d.afternoonFree
  | .evening => d.eveningFree

/-- Consume `dur` minutes of a day: advance the block's free pointer and
charge the daily budget. -/
def DayState.bump (d : DayState) (b : Block) (dur : ℕ) : DayState :=
  match b with
  | .morning =>
    { d with capLeft := d.capLeft - dur, morningFree := d.morningFree + dur }
  | .afternoon =>
    { d with capLeft := d.capLeft - dur, afternoonFree := d.afternoonFree + dur }
  | .evening =>
    { d with capLeft := d.capLeft - dur, eveningFree := d.eveningFree + dur }

/-- The free pointer of block `b` on day `j` of a day-state list
(0 outside the horizon). -/
def stFree (st : List DayState) (j : ℕ) (b : Block) : ℕ :=
  match st[j]? with
  | some d => d.free b
  | none => 0

/-! ### §4.1 Time-debt distribution -/

/-- One pass of the water-filling redistribution (§4.1 step 3): give each
subject still below its `outstanding_minutes` ceiling its proportional share
of the unassigned remainder, capped at the ceiling.  The fuel bounds the
loop at `N` passes; the pass also stops when nothing changed (§9). -/
def waterFill (fuel : ℕ) (alloc : List (Subject × ℚ)) (totalAvail : ℚ) :
    List (Subject × ℚ) :=
  match fuel with
  | 0 => alloc
  | f + 1 =>
    let rem := totalAvail - (alloc.map (fun sa => sa.2)).sum
    let unsat := alloc.filter (fun sa => sa.2 < sa.1.outstanding_minutes)
    let unsatOut : ℕ := (unsat.map (fun sa => sa.1.outstanding_minutes)).sum
    if rem ≤ 0 ∨ unsatOut = 0 then alloc
    else
      let next := alloc.map (fun sa =>
        if sa.2 < (sa.1.outstanding_minutes : ℚ) then
          (sa.1, min (sa.1.outstanding_minutes : ℚ)
            (sa.2 + rem * sa.1.outstanding_minutes / unsatOut))
        else sa)
      if next = alloc then alloc else waterFill f next totalAvail

/-- Proportional allocation with floor guarantee (§4.1 steps 1–3): equal
split when no subject has outstanding time, otherwise proportional targets
capped at each subject's own debt, then water-filling. -/
def distribute (subs : List Subject) (totalAvail : ℚ) :
    List (Subject × ℚ) :=
  let totalOut : ℕ := (subs.map (fun s => s.outstanding_minutes)).sum
  if totalOut = 0 then
    subs.map (fun s => (s, totalAvail / subs.length))
  else
    waterFill subs.length
      (subs.map (fun s =>
        (s, min (s.outstanding_minutes : ℚ)
          (totalAvail * s.outstanding_minutes / totalOut))))
      totalAvail

/-- The outstanding/allocated ratio used to pick the donation target of the
rounding remainder (§4.1 step 4); a zero allocation counts as ratio 0. -/
def allocRatio (sa : Subject × ℚ) : ℚ :=
  if sa.2 = 0 then 0 else sa.1.outstanding_minutes / sa.2

/-- The subject receiving the rounding leftover (§4.1 step 4): the first
subject with the largest outstanding/allocated ratio. -/
def donationTarget (alloc : List (Subject × ℚ)) : Option String :=
  match alloc with
  | [] => none
  | x :: xs =>
    some ((xs.foldl (fun best y =>
      if allocRatio best < allocRatio y then y else best) x).1.id)

/-- Round each allocation down to a multiple of the 30-minute granularity
and donate the leftover minutes to the subject with the largest
outstanding/allocated ratio (§4.1 step 4). -/
def roundAllocations (alloc : List (Subject × ℚ)) : List (Subject × ℕ) :=
  let rounded := alloc.map (fun sa => (sa.1, 30 * (⌊sa.2 / 30⌋).toNat))
  let leftover : ℕ :=
    ((⌊(alloc.map (fun sa => sa.2)).sum⌋ : ℤ) -
      (rounded.map (fun sa => (sa.2 : ℤ))).sum).toNat
  match donationTarget alloc with
  | none => rounded
  | some tid =>
    rounded.map (fun sa =>
      if sa.1.id = tid then (sa.1, sa.2 + leftover) else sa)

/-! ### §4.2 Session-type sequencing -/

/-- The fixed cyclic session catalog (§4.2):
deep_focus 90 → review 60 → deep_focus 90 → quick_recap 30.  -/
def catEntry (i : ℕ) : String × ℕ :=
  if i % 4 = 0 then ("deep_focus", 90)
  else if i % 4 = 1 then ("review", 60)
  else if i % 4 = 2 then ("deep_focus", 90)
  else ("quick_recap", 30)

/-- Break `remaining` allocated minutes into typed sessions by walking the
catalog cyclically (§4.2).  A remainder smaller than the next catalog entry
becomes one final session of exactly that size; a remainder below the
15-minute minimum is dropped and returned as the second component, to be
redistributed to the next subject.  The fuel (initially `remaining`) bounds
the recursion; every emitted catalog entry consumes at least 30 minutes. -/
def sessionsFor (fuel : ℕ) (remaining : ℕ) (catIdx : ℕ) :
    List (String × ℕ) × ℕ :=
  match fuel with
  | 0 => ([], remaining)
  | f + 1 =>
    if remaining < 15 then ([], remaining)
    else
      let e := catEntry catIdx
      if remaining < e.2 then ([(e.1, remaining)], 0)
      else
        let r := sessionsFor f (remaining - e.2) (catIdx + 1)
        ((e.1, e.2) :: r.1, r.2)

/-- A session still to be placed: its subject, session type and duration. -/
structure Pending where
  subj : Subject
  sessionKind : String
  dur : ℕ
deriving DecidableEq, Repr

/-- Sequence every subject's rounded allocation (§4.2), threading dropped
sub-15-minute remainders into the next subject's allocation in iteration
order. -/
def seqAll (carry : ℕ) : List (Subject × ℕ) → List (List Pending)
  | [] => []
  | (s, m) :: rest =>
    let r := sessionsFor (m + carry) (m + carry) 0
    (r.1.map (fun td => ⟨s, td.1, td.2⟩)) :: seqAll r.2 rest

/-- One round-robin pass structure (§4.3 step 2): take one pending session
from each subject per pass.  The fuel bounds the number of passes. -/
def roundRobinAux : ℕ → List (List Pending) → List Pending
  | 0, _ => []
  | f + 1, ls =>
    let heads := ls.filterMap List.head?
    if heads.isEmpty then []
    else heads ++ roundRobinAux f (ls.map List.tail)

/-- Round-robin interleaving of the per-subject session lists (§4.3
step 2). -/
def roundRobin (ls : List (List Pending)) : List Pending :=
  roundRobinAux ((ls.map List.length).sum) ls

/-! ### §4.3 Placement -/

/-- A placed session, before output shaping: the pending data plus the
assigned day index, block, and start time (minutes since midnight). -/
structure Placed where
  subj : Subject
  sessionKind : String
  dur : ℕ
  day : ℕ
  blk : Block
  start : ℕ
deriving DecidableEq, Repr

/-- Scan the preferred blocks in order for the first whose remaining window
can host `dur` minutes on day state `d` (§4.3 step 3). -/
def findBlock (dur : ℕ) (d : DayState) : List Block → Option Block
  | [] => none
  | b :: bs =>
    if d.free b + dur ≤ blockHi b then some b else findBlock dur d bs

/-- Place one session: scan days from the lowest index; a day hosts the
session if its remaining daily budget covers the duration and some
preferred block still has window room (§4.3 step 3).  Returns the assigned
(day index, block, start time) and the consumed day states, or `none` when
the session fits nowhere and is dropped (§4.3 step 4). -/
def placeOne (blocks : List Block) (dur : ℕ) :
    List DayState → Option ((ℕ × Block × ℕ) × List DayState)
  | [] => none
  | d :: ds =>
    match if (dur : ℚ) ≤ d.capLeft then findBlock dur d blocks else none with
    | some b => some ((0, b, d.free b), d.bump b dur :: ds)
    | none =>
      (placeOne blocks dur ds).map (fun r =>
        ((r.1.1 + 1, r.1.2.1, r.1.2.2), d :: r.2))

/-- Place every pending session in order, dropping those that fit nowhere
(§4.3 step 4). -/
def placeAll (blocks : List Block) :
    List Pending → List DayState → List Placed × List DayState
  | [], st => ([], st)
  | p :: ps, st =>
    match placeOne blocks p.dur st with
    | none => placeAll blocks ps st
    | some ((i, b, s), st') =>
      let r := placeAll blocks ps st'
      (⟨p.subj, p.sessionKind, p.dur, i, b, s⟩ :: r.1, r.2)

/-! ### §4.4 Schedule assembly -/

/-- A study session of the response (§3, §6): batch-unique id, subject
identity, derived title, positive duration, start time (minutes since
midnight) and 0-based day index. -/
structure SessionOut where
  id : String
  subject_id : String
  subject_name : String
  subject_color : String
  title : String
  duration_minutes : ℕ
  start_time : ℕ
  day_index : ℕ
  session_type : String
deriving DecidableEq, Repr

/-- The schedule aggregate (§3, §6). -/
structure Schedule where
  sessions : List SessionOut
  total_hours : ℚ
  days : ℕ
  subjects_covered : ℕ
deriving DecidableEq, Repr

/-- Derive a session title from its type, e.g. "Deep Focus: <Subject>"
(§3). -/
def sessionTitle (kind : String) (subjectName : String) : String :=
  (if kind = "deep_focus" then "Deep Focus: "
   else if kind = "review" then "Review: "
   else "Quick Recap: ") ++ subjectName

/-- Shape one placed session into the response entity, numbering ids within
the batch (§3). -/
def toSessionOut (n : ℕ) (p : Placed) : SessionOut :=
  { id := "session-" ++ toString n
    subject_id := p.subj.id
    subject_name := p.subj.name
    subject_color := p.subj.color
    title := sessionTitle p.sessionKind p.subj.name
    duration_minutes := p.dur
    start_time := p.start
    day_index := p.day
    session_type := p.sessionKind }

/-- Shape the placed sessions, numbering ids from `n`. -/
def mkSessions (n : ℕ) : List Placed → List SessionOut
  | [] => []
  | p :: ps => toSessionOut n p :: mkSessions (n + 1) ps

/-- Round to one decimal, half up (§4.4 `total_hours`). -/
def round1 (q : ℚ) : ℚ := (⌊q * 10 + 1/2⌋ : ℚ) / 10

/-- The `days` summary (§4.4): highest day index touched + 1, 0 if empty. -/
def scheduleDays (placed : List Placed) : ℕ :=
  match placed with
  | [] => 0
  | _ => ((placed.map (fun p => p.day)).foldr max 0) + 1

/-- Assemble the final schedule from the placed sessions (§4.4). -/
def assembleSchedule (placed : List Placed) : Schedule :=
  { sessions := mkSessions 0 placed
    total_hours := round1 ((((placed.map (fun p => p.dur)).sum : ℕ) : ℚ) / 60)
    days := scheduleDays placed
    subjects_covered := ((placed.map (fun p => p.subj.id)).dedup).length }

/-! ### Request validation, horizon and the full engine -/

/-- Request validation (§7 InvalidRequest / UnknownSubject): non-empty
subject ids, positive hours per day, positive day count, and every
requested id known to the subject store. -/
def validate (store : List Subject) (req : Request) : Bool :=
  !req.subject_ids.isEmpty &&
  decide (0 < req.hours_per_day) &&
  decide (0 < req.days_count) &&
  req.subject_ids.all (fun i => store.any (fun s => s.id == i))

/-- The effective horizon (§4.3 step 5): bounded by `days_until(exam_date)`
when an exam date is supplied; an exam date earlier than tomorrow means zero
capacity. -/
def effectiveDays (req : Request) : ℕ :=
  match req.exam_days_until with
  | none => req.days_count
  | some u => if u ≤ 0 then 0 else min req.days_count u.toNat

/-- The subjects included in a request, in request order. -/
def includedSubjects (store : List Subject) (req : Request) : List Subject :=
  req.subject_ids.filterMap (fun i => store.find? (fun s => s.id == i))

/-- The pending sessions of a request over a horizon of `eff` days:
distribution (§4.1), rounding, sequencing (§4.2) and round-robin
interleaving (§4.3 step 2). -/
def pendingsOf (store : List Subject) (req : Request) (eff : ℕ) :
    List Pending :=
  roundRobin (seqAll 0 (roundAllocations
    (distribute (includedSubjects store req)
      (req.hours_per_day * 60 * (eff : ℚ)))))

/-- The preferred blocks of a request, resolved against the catalog;
defaults to Morning+Afternoon when empty (§3, §6). -/
def blocksOf (req : Request) : List Block :=
  ((if req.preferred_blocks = [] then ["Morning", "Afternoon"]
    else req.preferred_blocks).filterMap parseBlock).dedup

/-- The initial placement state over `eff` days: full daily budget, every
block window untouched. -/
def initState (req : Request) (eff : ℕ) : List DayState :=
  List.replicate eff
    { capLeft := req.hours_per_day * 60, morningFree := 360,
      afternoonFree := 720, eveningFree := 1080 }

/-- Allocation, sequencing and placement over an effective horizon of `eff`
days (§4.1–§4.4). -/
def buildSchedule (store : List Subject) (req : Request) (eff : ℕ) :
    Schedule :=
  assembleSchedule
    (placeAll (blocksOf req) (pendingsOf store req eff)
      (initState req eff)).1

/-- The timetable generation engine (§2): validation first (§7), then the
effective horizon, then allocation, sequencing, placement and assembly. -/
def generate (store : List Subject) (req : Request) :
    Except String Schedule :=
  if validate store req then
    .ok (buildSchedule store req (effectiveDays req))
  else
    .error "InvalidRequest"

/-! ### Placement invariants and the no-overlap property -/

/-- Bumping a block moves exactly that block's free pointer, by the
session's duration. -/
theorem DayState.free_bump (d : DayState) (b b' : Block) (dur : ℕ) :
    (d.bump b dur).free b' = if b' = b then d.free b' + dur else d.free b' := by
  cases b <;> cases b' <;> simp [DayState.bump, DayState.free]

/-- `stFree` on a cons, day 0. -/
theorem stFree_cons_zero (d : DayState) (ds : List DayState) (b : Block) :
    stFree (d :: ds) 0 b = d.free b := by simp [stFree]

/-- `stFree` on a cons, later days. -/
theorem stFree_cons_succ (d : DayState) (ds : List DayState) (j : ℕ)
    (b : Block) : stFree (d :: ds) (j + 1) b = stFree ds j b := by
  simp [stFree]

/-- A block found by `findBlock` has window room for the session. -/
theorem findBlock_some {dur : ℕ} {d : DayState} {b : Block} :
    ∀ {bs : List Block}, findBlock dur d bs = some b →
    d.free b + dur ≤ blockHi b := by
  intro bs
  induction bs with
  | nil => intro h; cases h
  | cons b0 bs ih =>
    intro h
    rw [findBlock] at h
    split at h
    · cases h
      assumption
    · exact ih h

/-- Characterization of a successful `placeOne`: the session landed on a
day inside the horizon, at that day's current free pointer of a block with
window room; only that one free pointer advanced, exactly past the new
session. -/
theorem placeOne_spec {blocks : List Block} {dur : ℕ} :
    ∀ {st : List DayState} {i : ℕ} {b : Block} {s : ℕ} {st' : List DayState},
    placeOne blocks dur st = some ((i, b, s), st') →
    i < st.length ∧ st'.length = st.length ∧ s = stFree st i b ∧
    s + dur ≤ blockHi b ∧ stFree st' i b = s + dur ∧
    ∀ j b', ¬(j = i ∧ b' = b) → stFree st' j b' = stFree st j b' := by
  intro st
  induction st with
  | nil => intro i b s st' h; cases h
  | cons d ds ih =>
    intro i b s st' hp
    rw [placeOne] at hp
    cases hx : (if (dur : ℚ) ≤ d.capLeft then findBlock dur d blocks
        else none) with
    | some b0 =>
      rw [hx] at hp
      have hfb : findBlock dur d blocks = some b0 := by
        by_cases hcap : (dur : ℚ) ≤ d.capLeft
        · rwa [if_pos hcap] at hx
        · rw [if_neg hcap] at hx; cases hx
      simp only [Option.some.injEq, Prod.mk.injEq] at hp
      obtain ⟨⟨rfl, rfl, rfl⟩, rfl⟩ := hp
      refine ⟨by simp, by simp, (stFree_cons_zero d ds b0).symm,
        findBlock_some hfb, ?_, ?_⟩
      · rw [stFree_cons_zero, DayState.free_bump]
        simp
      · intro j b' hjb
        cases j with
        | zero =>
          rw [stFree_cons_zero, stFree_cons_zero, DayState.free_bump]
          have : ¬ b' = b0 := fun hb => hjb ⟨rfl, hb⟩
          simp [this]
        | succ j => rw [stFree_cons_succ, stFree_cons_succ]
    | none =>
      rw [hx] at hp
      rcases Option.map_eq_some'.mp hp with ⟨⟨⟨i0, b0, s0⟩, ds0⟩, hrec, heq⟩
      simp only [Prod.mk.injEq] at heq
      obtain ⟨⟨rfl, rfl, rfl⟩, rfl⟩ := heq
      obtain ⟨g1, g2, g3, g4, g5, g6⟩ := ih hrec
      refine ⟨by simpa using g1, by simpa using g2,
        by rw [stFree_cons_succ]; exact g3, g4,
        by rw [stFree_cons_succ]; exact g5, ?_⟩
      intro j b' hjb
      cases j with
      | zero => rw [stFree_cons_zero, stFree_cons_zero]
      | succ j =>
        rw [stFree_cons_succ, stFree_cons_succ]
        exact g6 j b' (fun hh => hjb ⟨by rw [hh.1], hh.2⟩)

/-- Placement-state invariant: every block's free pointer on every day of
the horizon stays inside that block's window. -/
def StInv (st : List DayState) : Prop :=
  ∀ j b, j < st.length → blockLo b ≤ stFree st j b ∧ stFree st j b ≤ blockHi b

/-- A placed session relative to a (past) placement state: it lies on a day
of the horizon, inside its block's window, and no earlier than the state's
free pointer for that block. -/
def PlacedAfter (st : List DayState) (r : Placed) : Prop :=
  r.day < st.length ∧ blockLo r.blk ≤ r.start ∧
  stFree st r.day r.blk ≤ r.start ∧ r.start + r.dur ≤ blockHi r.blk

/-- Two placed sessions on the same day occupy disjoint time ranges. -/
def DisjointP (p q : Placed) : Prop :=
  p.day = q.day → p.start + p.dur ≤ q.start ∨ q.start + q.dur ≤ p.start

/-- The three block windows are pairwise disjoint. -/
theorem blocks_disjoint :
    ∀ b b' : Block, b ≠ b' →
    blockHi b ≤ blockLo b' ∨ blockHi b' ≤ blockLo b := by
  intro b b'
  cases b <;> cases b' <;> decide

/-- Main placement invariant: starting from a well-formed state, `placeAll`
keeps the state well-formed, places every session after the current free
pointers, and produces pairwise disjoint same-day sessions. -/
theorem placeAll_spec (blocks : List Block) :
    ∀ (ps : List Pending) (st : List DayState), StInv st →
    StInv (placeAll blocks ps st).2 ∧
    (∀ r ∈ (placeAll blocks ps st).1, PlacedAfter st r) ∧
    (placeAll blocks ps st).1.Pairwise DisjointP := by
  intro ps
  induction ps with
  | nil => intro st hst; exact ⟨hst, by simp [placeAll], by simp [placeAll]⟩
  | cons p ps ih =>
    intro st hst
    rw [placeAll]
    cases hpo : placeOne blocks p.dur st with
    | none => exact ih st hst
    | some x =>
      obtain ⟨⟨i, b, s⟩, st'⟩ := x
      obtain ⟨h1, h2, h3, h4, h5, h6⟩ := placeOne_spec hpo
      have hmono : ∀ j b', stFree st j b' ≤ stFree st' j b' := by
        intro j b'
        by_cases hjb : j = i ∧ b' = b
        · obtain ⟨rfl, rfl⟩ := hjb
          rw [h5, ← h3]
          omega
        · rw [h6 j b' hjb]
      have hst' : StInv st' := by
        intro j b' hj
        rw [h2] at hj
        by_cases hjb : j = i ∧ b' = b
        · obtain ⟨rfl, rfl⟩ := hjb
          exact ⟨le_trans (hst _ _ hj).1 (hmono _ _), by rw [h5]; exact h4⟩
        · rw [h6 j b' hjb]
          exact hst j b' hj
      obtain ⟨ih1, ih2, ih3⟩ := ih st' hst'
      refine ⟨ih1, ?_, ?_⟩
      · intro r hr
        rcases List.mem_cons.mp hr with rfl | hr
        · exact ⟨h1, by rw [h3]; exact (hst i b h1).1, le_of_eq h3.symm, h4⟩
        · have hra := ih2 r hr
          refine ⟨?_, hra.2.1, le_trans (hmono _ _) hra.2.2.1, hra.2.2.2⟩
          rw [← h2]
          exact hra.1
      · rw [List.pairwise_cons]
        refine ⟨?_, ih3⟩
        intro r hr
        have hra := ih2 r hr
        intro hday
        dsimp only at hday ⊢
        by_cases hblk : r.blk = b
        · left
          have hge : stFree st' r.day r.blk ≤ r.start := hra.2.2.1
          rw [hblk, ← hday] at hge
          rw [h5] at hge
          exact hge
        · rcases blocks_disjoint b r.blk (fun hh => hblk hh.symm) with hbb | hbb
          · left
            have hlo := hra.2.1
            omega
          · right
            have hhi := hra.2.2.2
            have hlo : blockLo b ≤ s := by rw [h3]; exact (hst i b h1).1
            omega

/-- Two response sessions on the same day have non-overlapping
`[start_time, start_time + duration)` ranges. -/
def DisjointO (s t : SessionOut) : Prop :=
  s.day_index = t.day_index →
  ¬(s.start_time < t.start_time + t.duration_minutes ∧
    t.start_time < s.start_time + s.duration_minutes)

/-- Day index of a shaped session. -/
theorem toSessionOut_day (n : ℕ) (p : Placed) :
    (toSessionOut n p).day_index = p.day := rfl

/-- Start time of a shaped session. -/
theorem toSessionOut_start (n : ℕ) (p : Placed) :
    (toSessionOut n p).start_time = p.start := rfl

/-- Duration of a shaped session. -/
theorem toSessionOut_dur (n : ℕ) (p : Placed) :
    (toSessionOut n p).duration_minutes = p.dur := rfl

/-- Every shaped session comes from a placed one. -/
theorem mkSessions_mem {x : SessionOut} :
    ∀ {ps : List Placed} {n : ℕ}, x ∈ mkSessions n ps →
    ∃ m p, p ∈ ps ∧ x = toSessionOut m p := by
  intro ps
  induction ps with
  | nil => intro n h; cases h
  | cons p ps ih =>
    intro n h
    rcases List.mem_cons.mp h with rfl | h
    · exact ⟨n, p, List.mem_cons_self p ps, rfl⟩
    · obtain ⟨m, q, hq, rfl⟩ := ih h
      exact ⟨m, q, List.mem_cons_of_mem p hq, rfl⟩

/-- Output shaping preserves pairwise same-day disjointness. -/
theorem mkSessions_pairwise :
    ∀ {ps : List Placed} {n : ℕ}, ps.Pairwise DisjointP →
    (mkSessions n ps).Pairwise DisjointO := by
  intro ps
  induction ps with
  | nil => intro n _; exact List.Pairwise.nil
  | cons p ps ih =>
    intro n hp
    rw [List.pairwise_cons] at hp
    rw [mkSessions, List.pairwise_cons]
    refine ⟨?_, ih hp.2⟩
    intro x hx
    obtain ⟨m, q, hq, rfl⟩ := mkSessions_mem hx
    intro hday
    rw [toSessionOut_day, toSessionOut_day] at hday
    have hd := hp.1 q hq hday
    rw [toSessionOut_start, toSessionOut_start, toSessionOut_dur,
      toSessionOut_dur]
    omega

/-- The initial placement state is well-formed: every free pointer sits at
its block's window start. -/
theorem initState_inv (req : Request) (eff : ℕ) :
    StInv (initState req eff) := by
  intro j b hj
  rw [initState] at hj
  simp only [List.length_replicate] at hj
  have : stFree (initState req eff) j b =
      DayState.free ⟨req.hours_per_day * 60, 360, 720, 1080⟩ b := by
    rw [stFree, initState]
    simp [List.getElem?_replicate, hj]
  rw [this]
  cases b <;> simp [DayState.free, blockLo, blockHi]

/-- No two same-day sessions of a built schedule overlap, for every store,
request and effective horizon. -/
theorem buildSchedule_no_overlap (store : List Subject) (req : Request)
    (eff : ℕ) : (buildSchedule store req eff).sessions.Pairwise DisjointO :=
  mkSessions_pairwise
    (placeAll_spec (blocksOf req) (pendingsOf store req eff)
      (initState req eff) (initState_inv req eff)).2.2

/-- Placing over an empty horizon places nothing and changes nothing. -/
theorem placeAll_nil_state (blocks : List Block) :
    ∀ ps : List Pending, placeAll blocks ps [] = ([], []) := by
  intro ps
  induction ps with
  | nil => rfl
  | cons p ps ih => rw [placeAll, placeOne, ih]

/-- Assembling no placed sessions yields the empty, well-formed schedule. -/
theorem assembleSchedule_nil :
    assembleSchedule [] = ⟨[], 0, 0, 0⟩ := by
  rw [assembleSchedule]
  refine congrArg (fun q => Schedule.mk [] q 0 0) ?_
  show round1 (((0 : ℕ) : ℚ) / 60) = 0
  rw [round1]
  norm_num

/-- A zero-day effective horizon yields the empty, well-formed schedule. -/
theorem buildSchedule_zero (store : List Subject) (req : Request) :
    buildSchedule store req 0 = ⟨[], 0, 0, 0⟩ := by
  have h0 : initState req 0 = [] := rfl
  rw [buildSchedule, h0, placeAll_nil_state, assembleSchedule_nil]

/-- ZeroCapacity policy (§7): a valid request whose exam date lies before
tomorrow produces the empty, well-formed schedule instead of an error. -/
theorem generate_zero_capacity (store : List Subject) (req : Request)
    (u : ℤ) (hv : validate store req = true)
    (hu : req.exam_days_until = some u) (hle : u ≤ 0) :
    generate store req = .ok ⟨[], 0, 0, 0⟩ := by
  rw [generate, if_pos hv]
  have he : effectiveDays req = 0 := by
    rw [effectiveDays, hu]
    simp [hle]
  rw [he, buildSchedule_zero]

/-! ### Claim theorems: engine (spec-modelled) -/

/-- C3: for every request the engine answers with a schedule (in particular
every request with at least one valid subject and positive capacity), no
two sessions of that schedule on the same day have overlapping
`[start_time, start_time + duration)` ranges. -/
theorem generate_no_overlap (store : List Subject) (req : Request)
    (sched : Schedule) (h : generate store req = .ok sched) :
    sched.sessions.Pairwise DisjointO := by
  rw [generate] at h
  split at h
  · injection h with h
    rw [← h]
    exact buildSchedule_no_overlap store req (effectiveDays req)
  · cases h

/-- C6: for every valid request whose exam date lies in the past (before
tomorrow, i.e. `days_until(exam_date) ≤ 0`), the engine returns the empty,
well-formed schedule — `sessions = []`, `total_hours = 0`, `days = 0`,
`subjects_covered = 0` — rather than an error. -/
theorem generate_past_exam_empty (store : List Subject) (req : Request)
    (u : ℤ) (hv : validate store req = true)
    (hu : req.exam_days_until = some u) (hle : u ≤ 0) :
    generate store req = .ok ⟨[], 0, 0, 0⟩ :=
  generate_zero_capacity store req u hv hu hle

/-- A one-subject store used by the engine witnesses. -/
def demoStore : List Subject := [⟨"s1", "Math", "#8B5CF6", 60⟩]

/-- A valid request over `demoStore` whose exam date was yesterday. -/
def reqPastExam : Request :=
  { subject_ids := ["s1"], hours_per_day := 4, preferred_blocks := [],
    exam_days_until := some (-1), days_count := 7 }

/-- C6 (witness): the theorem at a concrete valid request with yesterday's
exam date. -/
theorem generate_past_exam_empty_witness :
    generate demoStore reqPastExam = .ok ⟨[], 0, 0, 0⟩ :=
  generate_past_exam_empty demoStore reqPastExam (-1) (by decide) rfl
    (by decide)

/-- A subject with no outstanding time, exercising the equal-split path. -/
def demoSubject : Subject :=
  { id := "s1", name := "Math", color := "#8B5CF6", outstanding_minutes := 0 }

/-- A store holding just `demoSubject`. -/
def demoStoreZero : List Subject := [demoSubject]

/-- A one-day request over `demoStoreZero` with one hour per day. -/
def reqOneDay : Request :=
  { subject_ids := ["s1"], hours_per_day := 1, preferred_blocks := [],
    exam_days_until := none, days_count := 1 }

/-- The schedule the engine produces for `reqOneDay`. -/
def demoSchedule : Schedule :=
  { sessions := [⟨"session-0", "s1", "Math", "#8B5CF6", "Deep Focus: Math",
      60, 360, 0, "deep_focus"⟩],
    total_hours := 1, days := 1, subjects_covered := 1 }

/-- End-to-end evaluation of the engine on a concrete request: the single
subject's equal-split hour becomes one 60-minute deep-focus session at the
start of the Morning block of day 0. -/
theorem generate_demo_eval :
    generate demoStoreZero reqOneDay = .ok demoSchedule := by
  have hsubs : includedSubjects demoStoreZero reqOneDay = [demoSubject] := rfl
  have htotal : reqOneDay.hours_per_day * 60 * ((1 : ℕ) : ℚ) = 60 := by
    norm_num [reqOneDay]
  have hdist : distribute [demoSubject] 60 = [(demoSubject, 60)] := by
    rw [distribute]
    norm_num [demoSubject]
  have hround : roundAllocations [(demoSubject, 60)] = [(demoSubject, 60)] := by
    rw [roundAllocations]
    norm_num [donationTarget, allocRatio, demoSubject]
    decide
  have hpends : pendingsOf demoStoreZero reqOneDay 1 =
      [⟨demoSubject, "deep_focus", 60⟩] := by
    rw [pendingsOf, hsubs, htotal, hdist, hround]
    decide
  have hblocks : blocksOf reqOneDay = [.morning, .afternoon] := rfl
  have hinit : initState reqOneDay 1 = [⟨60, 360, 720, 1080⟩] := by
    rw [initState]
    norm_num [reqOneDay]
  have hplace : (placeAll [.morning, .afternoon]
      [⟨demoSubject, "deep_focus", 60⟩] [⟨60, 360, 720, 1080⟩]).1 =
      [⟨demoSubject, "deep_focus", 60, 0, .morning, 360⟩] := by
    norm_num [placeAll, placeOne, findBlock, DayState.free, DayState.bump,
      blockHi]
  have hbuild : buildSchedule demoStoreZero reqOneDay 1 = demoSchedule := by
    rw [buildSchedule, hblocks, hpends, hinit, hplace]
    norm_num [assembleSchedule, mkSessions, toSessionOut, sessionTitle,
      scheduleDays, round1, demoSubject, demoSchedule]
    decide
  have hv : validate demoStoreZero reqOneDay = true := by decide
  rw [generate, if_pos hv]
  rw [show effectiveDays reqOneDay = 1 from rfl, hbuild]

/-- C3 (witness): the theorem at a concrete request and the schedule the
engine returns for it. -/
theorem generate_no_overlap_witness :
    demoSchedule.sessions.Pairwise DisjointO :=
  generate_no_overlap demoStoreZero reqOneDay demoSchedule generate_demo_eval

end Engine

end Studify
